import Mathlib

/-!
Verification of the enrollment/progress aggregation core of the wss-backend
learning-management system (apps/enrollments/models.py and
apps/enrollments/serializers.py), as a shallow embedding.

Modelling conventions:
- Database rows become Lean structures. Foreign keys that the code
  dereferences are embedded as the referenced record (LessonProgress.lesson,
  Enrollment.course); keys only stored, never dereferenced, stay numeric ids.
- Timestamps are abstract instants (Nat); timezone.now() becomes an explicit
  `now` argument to each mutating operation.
- Lesson.duration and Lesson.order are PositiveIntegerField columns, hence
  Nat. LessonProgress.watched_duration is a PositiveIntegerField column, but
  the Python attribute holds an arbitrary int between loads and saves and
  update_watched_duration performs unchecked int arithmetic on it, so it is
  modelled as Int, with non-negativity carried as a hypothesis where the
  store guarantees it.
- Python float percentages are modelled as exact rationals; Python round(x, 2)
  is round-half-to-even on the exact value (pyRound below). The binary-float
  representation error of CPython is abstracted away; no claim in scope
  depends on it or on midpoint ties.
- Django querysets over the loaded records become List operations; queryset
  .order_by(f).first() becomes a first-minimum-by-key selection, which is
  what a stable sort followed by head yields.
-/

/-- Lesson row (apps/videos/models.py, class Lesson): ordered learning unit of
a course, with an estimated duration in minutes. -/
structure Lesson where
  id : Nat
  order : Nat
  duration : Nat
  deriving DecidableEq

/-- Course row (apps/courses/models.py) restricted to what the aggregation
logic reads: its ordered collection of lessons (course.lessons). -/
structure Course where
  id : Nat
  lessons : List Lesson
  deriving DecidableEq

/-- LessonProgress row (apps/enrollments/models.py, class LessonProgress):
per-lesson watch state of an enrollment. The lesson foreign key is embedded
because the code reads lesson.duration and lesson_id through it. -/
structure LessonProgress where
  enrollment_id : Nat
  lesson : Lesson
  completed : Bool
  completed_at : Option Nat
  watched_duration : Int
  last_watched_at : Option Nat
  deriving DecidableEq

/-- Enrollment row (apps/enrollments/models.py, class Enrollment) together
with its loaded course and lesson_progress related sets. -/
structure Enrollment where
  id : Nat
  user_id : Nat
  course : Course
  is_active : Bool
  completed : Bool
  completed_at : Option Nat
  rating : Option Int
  review : String
  lesson_progress : List LessonProgress
  deriving DecidableEq

/-- Python round to integer: round-half-to-even (banker's rounding) on the
exact rational value. Off midpoints it agrees with rounding to nearest. -/
def pyRound (q : ℚ) : ℤ :=
  if q - (⌊q⌋ : ℚ) = 1 / 2 then (if ⌊q⌋ % 2 = 0 then ⌊q⌋ else ⌊q⌋ + 1)
  else round q

/-- Python round(x, 2): round to two decimal places. -/
def round2 (q : ℚ) : ℚ :=
  (pyRound (q * 100) : ℚ) / 100

/-- Enrollment.progress_percentage: percentage of completed lessons, the count
of completed lesson_progress rows over the count of the course's lessons,
times 100, rounded to 2 decimals; 0 when the course has no lessons. -/
def Enrollment.progress_percentage (e : Enrollment) : ℚ :=
  let total_lessons := e.course.lessons.length
  if total_lessons = 0 then 0
  else
    let completed_lessons := (e.lesson_progress.filter (fun p => p.completed)).length
    round2 ((completed_lessons : ℚ) / (total_lessons : ℚ) * 100)

/-- First element of minimal order: the head of the list stably sorted by the
order field, as produced by .order_by(order).first() on a loaded queryset. -/
def minByOrder : List Lesson → Option Lesson
  | [] => none
  | l :: ls =>
    match minByOrder ls with
    | none => some l
    | some m => if l.order ≤ m.order then some l else some m

/-- Enrollment.get_next_lesson: ids of the completed lesson_progress rows are
collected, the course's lessons excluding those ids are ordered by the order
field, and the first is returned (none when all are excluded). -/
def Enrollment.get_next_lesson (e : Enrollment) : Option Lesson :=
  let completed_lesson_ids :=
    ((e.lesson_progress.filter (fun p => p.completed)).map (fun p => p.lesson.id))
  minByOrder (e.course.lessons.filter (fun l => decide (l.id ∉ completed_lesson_ids)))

/-- LessonProgress.progress_percentage: watched share of the lesson. A zero
duration (Python falsy check on the field) yields 100 when completed, else 0;
otherwise watched_duration / duration * 100 rounded to 2 decimals and capped
at 100. Total: the zero test guards the division. -/
def LessonProgress.progress_percentage (p : LessonProgress) : ℚ :=
  if p.lesson.duration = 0 then (if p.completed then 100 else 0)
  else min (round2 ((p.watched_duration : ℚ) / (p.lesson.duration : ℚ) * 100)) 100

/-- LessonProgress.mark_as_completed: sets completed, stamps completed_at with
the current time and forces watched_duration to the lesson's full duration. -/
def LessonProgress.mark_as_completed (p : LessonProgress) (now : Nat) : LessonProgress :=
  { p with
    completed := true
    completed_at := some now
    watched_duration := (p.lesson.duration : Int) }

/-- LessonProgress.update_watched_duration: adds the session's minutes to
watched_duration, clamped above by the lesson duration, and stamps
last_watched_at. No check on the sign of minutes is performed. -/
def LessonProgress.update_watched_duration (p : LessonProgress) (minutes : Int)
    (now : Nat) : LessonProgress :=
  { p with
    watched_duration := min (p.watched_duration + minutes) (p.lesson.duration : Int)
    last_watched_at := some now }

/-!
Serializer layer (apps/enrollments/serializers.py). DRF runs field-level
validators first, then the object-level validate, then update; a raised
ValidationError aborts before update, leaving the instance untouched.
Validation outcomes are modelled with Except String, the string carrying the
field key and message of the raised error.
-/

/-- Partial input data of LessonProgressSerializer: the writable fields a
request may supply (attrs dict after field deserialization). -/
structure LPAttrs where
  enrollment : Option Enrollment := none
  lesson : Option Lesson := none
  completed : Option Bool := none
  watched_duration : Option Int := none
  deriving DecidableEq

/-- LessonProgressSerializer.validate_watched_duration: field-level check
rejecting a negative directly-supplied value. -/
def validate_watched_duration (value : Int) : Except String Int :=
  if value < 0 then Except.error "Watched duration cannot be negative."
  else Except.ok value

/-- Enrollment resolution at the head of LessonProgressSerializer.validate:
the attrs value when supplied, else the instance's enrollment (passed here as
the dereferenced foreign key of the instance), else none. -/
def lpResolvedEnrollment (instEnr : Option Enrollment) (attrs : LPAttrs) :
    Option Enrollment :=
  match attrs.enrollment with
  | some e => some e
  | none => instEnr

/-- Lesson resolution in LessonProgressSerializer.validate: the attrs value
when supplied, else the instance's lesson, else none. -/
def lpResolvedLesson (inst : Option LessonProgress) (attrs : LPAttrs) :
    Option Lesson :=
  match attrs.lesson with
  | some l => some l
  | none =>
    match inst with
    | some i => some i.lesson
    | none => none

/-- Ownership test of LessonProgressSerializer.validate: both an enrollment
and a request user resolved, and the enrollment's user differs. -/
def lpOwnerMismatch (enr : Option Enrollment) (user : Option Nat) : Bool :=
  match enr, user with
  | some e, some u => e.user_id != u
  | _, _ => false

/-- Watched-duration resolution in LessonProgressSerializer.validate:
attrs.get with the instance's current value (0 without an instance) as
default. -/
def lpResolvedWatched (inst : Option LessonProgress) (attrs : LPAttrs) : Int :=
  match attrs.watched_duration with
  | some wd => wd
  | none =>
    match inst with
    | some i => i.watched_duration
    | none => 0

/-- Final clause of LessonProgressSerializer.validate: when completed is
truthy and watched_duration was supplied but differs from the lesson's
duration, attrs.watched_duration is raised to the duration. (The serializer
always has a resolved lesson on this path: the field is required on create
and read from the instance on update.) -/
def lpForceCompleted (lesson : Option Lesson) (attrs : LPAttrs) : LPAttrs :=
  match attrs.completed, attrs.watched_duration, lesson with
  | some true, some wd, some l =>
    if wd ≠ (l.duration : Int) then
      { attrs with watched_duration := some (l.duration : Int) }
    else attrs
  | _, _, _ => attrs

/-- LessonProgressSerializer.validate: object-level rules — ownership, then
the watched_duration-must-not-exceed-duration rejection, then the
completion-forcing rewrite of attrs. -/
def lpValidate (user : Option Nat) (inst : Option LessonProgress)
    (instEnr : Option Enrollment) (attrs : LPAttrs) : Except String LPAttrs :=
  let enr := lpResolvedEnrollment instEnr attrs
  let lesson := lpResolvedLesson inst attrs
  if lpOwnerMismatch enr user then
    Except.error "You can only update your own progress."
  else
    match lesson with
    | some l =>
      if (l.duration : Int) < lpResolvedWatched inst attrs then
        Except.error "Watched duration cannot exceed lesson duration."
      else Except.ok (lpForceCompleted (some l) attrs)
    | none => Except.ok (lpForceCompleted none attrs)

/-- The DRF validation pipeline for LessonProgressSerializer: field-level
validate_watched_duration on a supplied value, then object-level validate. -/
def lpRunValidation (user : Option Nat) (inst : Option LessonProgress)
    (instEnr : Option Enrollment) (attrs : LPAttrs) : Except String LPAttrs :=
  match attrs.watched_duration with
  | some wd =>
    match validate_watched_duration wd with
    | Except.error e => Except.error e
    | Except.ok _ => lpValidate user inst instEnr attrs
  | none => lpValidate user inst instEnr attrs

/-- LessonProgressSerializer.update: stamps completed_at on the false-to-true
transition, stamps last_watched_at when watched_duration was supplied, forces
watched_duration to the instance's lesson duration when completed is truthy,
then writes the supplied fields onto the instance. -/
def lpUpdate (inst : LessonProgress) (attrs : LPAttrs) (now : Nat) :
    LessonProgress :=
  let completed_at :=
    if attrs.completed == some true && !inst.completed then some now
    else inst.completed_at
  let last_watched_at :=
    if attrs.watched_duration.isSome then some now else inst.last_watched_at
  let watched :=
    if attrs.completed == some true then (inst.lesson.duration : Int)
    else attrs.watched_duration.getD inst.watched_duration
  { inst with
    enrollment_id := (attrs.enrollment.map (fun e => e.id)).getD inst.enrollment_id
    lesson := attrs.lesson.getD inst.lesson
    completed := attrs.completed.getD inst.completed
    completed_at := completed_at
    watched_duration := watched
    last_watched_at := last_watched_at }

/-- Serializer update round-trip on an existing instance: a validation error
aborts the mutation and the stored record stays as it was; otherwise the
update method is applied to the validated attrs. -/
def lpApply (user : Option Nat) (inst : LessonProgress)
    (instEnr : Option Enrollment) (attrs : LPAttrs) (now : Nat) : LessonProgress :=
  match lpRunValidation user (some inst) instEnr attrs with
  | Except.error _ => inst
  | Except.ok a => lpUpdate inst a now

/-- Partial input data of EnrollmentUpdateSerializer: its writable fields. -/
structure EnrAttrs where
  is_active : Option Bool := none
  rating : Option (Option Int) := none
  review : Option String := none
  deriving DecidableEq

/-- EnrollmentUpdateSerializer.validate_rating: a present rating must lie in
1..5. -/
def validate_rating (value : Option Int) : Except String (Option Int) :=
  match value with
  | some v =>
    if v < 1 || v > 5 then Except.error "Rating must be between 1 and 5 stars."
    else Except.ok (some v)
  | none => Except.ok none

/-- EnrollmentUpdateSerializer.validate: ownership check, then a truthy
(non-empty) supplied review requires at least one completed lesson_progress
row on the instance. This serializer only serves updates, so the instance is
always present. -/
def enrValidate (user : Option Nat) (inst : Enrollment) (attrs : EnrAttrs) :
    Except String EnrAttrs :=
  if (match user with
      | some u => inst.user_id != u
      | none => false) then
    Except.error "You can only update your own enrollment."
  else
    match attrs.review with
    | some r =>
      if r ≠ "" then
        if (inst.lesson_progress.filter (fun p => p.completed)).length = 0 then
          Except.error "You must complete at least one lesson before reviewing the course."
        else Except.ok attrs
      else Except.ok attrs
    | none => Except.ok attrs

/-!
Helper lemmas about the first-minimum-by-order selection underlying
Enrollment.get_next_lesson.
-/

/-- The selection is empty exactly on the empty list. -/
theorem minByOrder_eq_none_iff (ls : List Lesson) : minByOrder ls = none ↔ ls = [] := by
  cases ls with
  | nil => simp [minByOrder]
  | cons a ls =>
    simp only [minByOrder]
    cases minByOrder ls with
    | none => simp
    | some m => by_cases h : a.order ≤ m.order <;> simp [h]

/-- A selected lesson belongs to the list. -/
theorem minByOrder_mem : ∀ {ls : List Lesson} {l : Lesson}, minByOrder ls = some l →
    l ∈ ls := by
  intro ls
  induction ls with
  | nil => intro l h; simp [minByOrder] at h
  | cons a ls ih =>
    intro l h
    simp only [minByOrder] at h
    cases hm : minByOrder ls with
    | none =>
      rw [hm] at h
      simp only [Option.some.injEq] at h
      simp [h]
    | some m =>
      rw [hm] at h
      by_cases hc : a.order ≤ m.order
      · simp only [hc, if_true, Option.some.injEq] at h
        simp [h]
      · simp only [hc, if_false, Option.some.injEq] at h
        exact List.mem_cons_of_mem a (h ▸ ih hm)

/-- A selected lesson has an order no larger than any member's. -/
theorem minByOrder_le : ∀ {ls : List Lesson} {l : Lesson}, minByOrder ls = some l →
    ∀ x ∈ ls, l.order ≤ x.order := by
  intro ls
  induction ls with
  | nil => intro l h; simp [minByOrder] at h
  | cons a ls ih =>
    intro l h
    simp only [minByOrder] at h
    cases hm : minByOrder ls with
    | none =>
      rw [hm] at h
      simp only [Option.some.injEq] at h
      have hnil : ls = [] := (minByOrder_eq_none_iff ls).mp hm
      subst hnil
      intro x hx
      simp at hx
      simp [hx, ← h]
    | some m =>
      rw [hm] at h
      have hle := ih hm
      by_cases hc : a.order ≤ m.order
      · simp only [hc, if_true, Option.some.injEq] at h
        subst h
        intro x hx
        rcases List.mem_cons.mp hx with hx | hx
        · simp [hx]
        · exact le_trans hc (hle x hx)
      · simp only [hc, if_false, Option.some.injEq] at h
        subst h
        intro x hx
        rcases List.mem_cons.mp hx with hx | hx
        · subst hx
          exact le_of_lt (Nat.lt_of_not_le hc)
        · exact hle x hx

/-!
Concrete records used to instantiate the theorems: the course of the spec's
walkthrough scenario (three lessons of orders 1, 2, 3 and durations 10, 20,
30; lesson 1 completed, lesson 2 watched 5 minutes) and a few auxiliary
progress rows.
-/

def lessonA : Lesson := { id := 1, order := 1, duration := 10 }

def lessonB : Lesson := { id := 2, order := 2, duration := 20 }

def lessonC : Lesson := { id := 3, order := 3, duration := 30 }

def courseABC : Course := { id := 1, lessons := [lessonA, lessonB, lessonC] }

def progA : LessonProgress :=
  { enrollment_id := 1, lesson := lessonA, completed := true,
    completed_at := some 100, watched_duration := 10, last_watched_at := some 100 }

def progB : LessonProgress :=
  { enrollment_id := 1, lesson := lessonB, completed := false,
    completed_at := none, watched_duration := 5, last_watched_at := some 200 }

def enrABC : Enrollment :=
  { id := 1, user_id := 7, course := courseABC, is_active := true,
    completed := false, completed_at := none, rating := none, review := "",
    lesson_progress := [progA, progB] }

def progHalf : LessonProgress :=
  { enrollment_id := 1, lesson := lessonB, completed := false,
    completed_at := none, watched_duration := 10, last_watched_at := none }

def progFull : LessonProgress :=
  { enrollment_id := 1, lesson := lessonB, completed := false,
    completed_at := none, watched_duration := 20, last_watched_at := none }

def progThird : LessonProgress :=
  { enrollment_id := 1, lesson := { id := 9, order := 1, duration := 3 },
    completed := false, completed_at := none, watched_duration := 1,
    last_watched_at := none }

def progZeroDur : LessonProgress :=
  { enrollment_id := 1, lesson := { id := 8, order := 1, duration := 0 },
    completed := true, completed_at := some 5, watched_duration := 0,
    last_watched_at := none }

/-- C1: Enrollment.progress_percentage returns 0 when the course has zero
lessons (no division is attempted), and otherwise the count of
LessonProgress rows with completed true over the count of the course's
lessons, times 100, rounded to 2 decimals. -/
theorem enrollment_completion_percentage_spec (e : Enrollment) :
    (e.course.lessons.length = 0 → e.progress_percentage = 0) ∧
    (e.course.lessons.length ≠ 0 →
      e.progress_percentage =
        round2 (((e.lesson_progress.filter (fun p => p.completed)).length : ℚ) /
          (e.course.lessons.length : ℚ) * 100)) := by
  constructor <;> intro h <;> simp [Enrollment.progress_percentage, h]

/-- Witness for C1 on the walkthrough enrollment: one completed lesson of
three gives 33.33 percent. -/
theorem enrollment_completion_percentage_witness :
    enrABC.course.lessons.length ≠ 0 ∧ enrABC.progress_percentage = 3333 / 100 := by
  refine ⟨by decide, ?_⟩
  have h := (enrollment_completion_percentage_spec enrABC).2 (by decide)
  rw [h]
  norm_num [enrABC, courseABC, progA, progB, round2, pyRound, round_eq]

/-- C2: a LessonProgress satisfying 0 ≤ watched_duration ≤ lesson.duration
still satisfies it after update_watched_duration with non-negative minutes
and after mark_as_completed. -/
theorem progress_invariant_preserved (p : LessonProgress) (m : Int) (t : Nat)
    (h0 : 0 ≤ p.watched_duration)
    (h1 : p.watched_duration ≤ (p.lesson.duration : Int)) (hm : 0 ≤ m) :
    (0 ≤ (p.update_watched_duration m t).watched_duration ∧
      (p.update_watched_duration m t).watched_duration ≤
        ((p.update_watched_duration m t).lesson.duration : Int)) ∧
    (0 ≤ (p.mark_as_completed t).watched_duration ∧
      (p.mark_as_completed t).watched_duration ≤
        ((p.mark_as_completed t).lesson.duration : Int)) := by
  simp only [LessonProgress.update_watched_duration, LessonProgress.mark_as_completed]
  refine ⟨⟨?_, ?_⟩, ?_, ?_⟩ <;> omega

/-- Witness for C2 at the walkthrough progress row of lesson B. -/
theorem progress_invariant_witness :
    0 ≤ (progB.update_watched_duration 5 3).watched_duration ∧
    (progB.update_watched_duration 5 3).watched_duration ≤
      ((progB.update_watched_duration 5 3).lesson.duration : Int) := by
  exact (progress_invariant_preserved progB 5 3 (by decide) (by decide) (by decide)).1

/-- Counterexample to C3 as stated: update_watched_duration performs no sign
check, so minutes of -5 on a row with 10 watched minutes silently rewrites
the row to 5 watched minutes instead of failing. -/
theorem record_watch_negative_modifies :
    (-5 : Int) < 0 ∧ progHalf.watched_duration = 10 ∧
    (progHalf.update_watched_duration (-5) 7).watched_duration = 5 := by
  decide

/-- C3 amended: update_watched_duration adds minutes (of either sign) clamped
above by the lesson duration and stamps last_watched_at; the negativity
rejection exists only in the serializer's field validator for a directly
supplied watched_duration, which errors exactly on negative values. -/
theorem record_watch_behavior (p : LessonProgress) (m : Int) (t : Nat) :
    ((p.update_watched_duration m t).watched_duration =
        min (p.watched_duration + m) (p.lesson.duration : Int) ∧
      (p.update_watched_duration m t).last_watched_at = some t) ∧
    (∀ v : Int, v < 0 → ∃ msg, validate_watched_duration v = Except.error msg) ∧
    (∀ v : Int, 0 ≤ v → validate_watched_duration v = Except.ok v) := by
  refine ⟨⟨rfl, rfl⟩, ?_, ?_⟩
  · intro v hv
    exact ⟨"Watched duration cannot be negative.",
      by simp [validate_watched_duration, hv]⟩
  · intro v hv
    simp only [validate_watched_duration]
    rw [if_neg (not_lt.mpr hv)]

/-- Witness for C3 amended: a 5-minute watch on the half-watched row lands at
15 minutes, and a directly supplied value of -3 is rejected. -/
theorem record_watch_behavior_witness :
    (progHalf.update_watched_duration 5 1).watched_duration = 15 ∧
    ∃ msg, validate_watched_duration (-3) = Except.error msg := by
  have h := record_watch_behavior progHalf 5 1
  refine ⟨?_, h.2.1 (-3) (by decide)⟩
  rw [h.1.1]
  decide

/-- C5: under the invariant and non-negative minutes, update_watched_duration
never decreases watched_duration, and a row already at the lesson's full
duration is left unchanged by any further call. -/
theorem record_watch_monotone (p : LessonProgress) (m : Int) (t : Nat)
    (h0 : 0 ≤ p.watched_duration)
    (h1 : p.watched_duration ≤ (p.lesson.duration : Int)) (hm : 0 ≤ m) :
    p.watched_duration ≤ (p.update_watched_duration m t).watched_duration ∧
    (p.watched_duration = (p.lesson.duration : Int) →
      (p.update_watched_duration m t).watched_duration = p.watched_duration) := by
  simp only [LessonProgress.update_watched_duration]
  constructor
  · omega
  · intro h
    omega

/-- Witness for C5 at the spec scenario: 25 more minutes on a fully watched
20-minute lesson leave watched_duration at 20. -/
theorem record_watch_monotone_witness :
    (progFull.update_watched_duration 25 9).watched_duration =
      progFull.watched_duration ∧ progFull.watched_duration = 20 := by
  have h := record_watch_monotone progFull 25 9 (by decide) (by decide) (by decide)
  exact ⟨h.2 (by decide), by decide⟩

/-- Counterexample to C6 as stated: a second mark_as_completed call at a
later instant overwrites completed_at, so the state triple (completed,
completed_at, watched_duration) after two calls differs from the state after
one call. -/
theorem mark_as_completed_twice_differs :
    ¬(((progB.mark_as_completed 1).mark_as_completed 2).completed =
        (progB.mark_as_completed 1).completed ∧
      ((progB.mark_as_completed 1).mark_as_completed 2).completed_at =
        (progB.mark_as_completed 1).completed_at ∧
      ((progB.mark_as_completed 1).mark_as_completed 2).watched_duration =
        (progB.mark_as_completed 1).watched_duration) := by
  decide

/-- C6 amended: mark_as_completed is idempotent on completed and
watched_duration, and fully idempotent when the repeated call observes the
same clock instant; completed_at always carries the latest call's instant. -/
theorem mark_as_completed_idem (p : LessonProgress) (t1 t2 : Nat) :
    ((p.mark_as_completed t1).mark_as_completed t2).completed =
      (p.mark_as_completed t1).completed ∧
    ((p.mark_as_completed t1).mark_as_completed t2).watched_duration =
      (p.mark_as_completed t1).watched_duration ∧
    ((p.mark_as_completed t1).mark_as_completed t2).completed_at = some t2 ∧
    (p.mark_as_completed t1).mark_as_completed t1 = p.mark_as_completed t1 := by
  exact ⟨rfl, rfl, rfl, rfl⟩

/-- C10: update_watched_duration writes only watched_duration and
last_watched_at; completed, completed_at and the enrollment and lesson
references are untouched. -/
theorem record_watch_frame (p : LessonProgress) (m : Int) (t : Nat) :
    (p.update_watched_duration m t).completed = p.completed ∧
    (p.update_watched_duration m t).completed_at = p.completed_at ∧
    (p.update_watched_duration m t).enrollment_id = p.enrollment_id ∧
    (p.update_watched_duration m t).lesson = p.lesson := by
  exact ⟨rfl, rfl, rfl, rfl⟩

/-- C4: get_next_lesson returns a lesson of the course that has no completed
progress row and whose order is minimal among the course's lessons without a
completed progress row; it returns none exactly when every lesson of the
course has a completed progress row (vacuously for an empty course). -/
theorem next_lesson_spec (e : Enrollment) :
    (∀ l, e.get_next_lesson = some l →
      l ∈ e.course.lessons ∧
      (∀ p ∈ e.lesson_progress, p.lesson.id = l.id → p.completed = false) ∧
      (∀ x ∈ e.course.lessons,
        (∀ p ∈ e.lesson_progress, p.lesson.id = x.id → p.completed = false) →
        l.order ≤ x.order)) ∧
    (e.get_next_lesson = none ↔
      ∀ x ∈ e.course.lessons,
        ∃ p ∈ e.lesson_progress, p.lesson.id = x.id ∧ p.completed = true) := by
  constructor
  · intro l hl
    have hmem := minByOrder_mem hl
    rw [List.mem_filter, decide_eq_true_eq] at hmem
    obtain ⟨hmem1, hmem2⟩ := hmem
    refine ⟨hmem1, ?_, ?_⟩
    · intro p hp hid
      by_contra hcon
      have hptrue : p.completed = true := by
        cases hpc : p.completed
        · exact absurd hpc hcon
        · rfl
      exact hmem2 (List.mem_map.mpr
        ⟨p, List.mem_filter.mpr ⟨hp, by simp [hptrue]⟩, hid⟩)
    · intro x hx hxinc
      apply minByOrder_le hl
      rw [List.mem_filter, decide_eq_true_eq]
      refine ⟨hx, ?_⟩
      intro hxin
      obtain ⟨p, hpmem, hpid⟩ := List.mem_map.mp hxin
      rw [List.mem_filter] at hpmem
      have := hxinc p hpmem.1 hpid
      rw [this] at hpmem
      exact Bool.false_ne_true hpmem.2
  · rw [Enrollment.get_next_lesson, minByOrder_eq_none_iff, List.filter_eq_nil_iff]
    constructor
    · intro h x hx
      have hx2 := h x hx
      rw [decide_eq_true_eq, not_not] at hx2
      obtain ⟨p, hpmem, hpid⟩ := List.mem_map.mp hx2
      rw [List.mem_filter] at hpmem
      exact ⟨p, hpmem.1, hpid, hpmem.2⟩
    · intro h x hx
      rw [decide_eq_true_eq, not_not]
      obtain ⟨p, hpmem, hpid, hpc⟩ := h x hx
      exact List.mem_map.mpr ⟨p, List.mem_filter.mpr ⟨hpmem, hpc⟩, hpid⟩

/-- Witness for C4 on the walkthrough enrollment: the next lesson is lesson B
(order 2), and by the theorem its order is at most that of the other
incomplete lesson C. -/
theorem next_lesson_witness :
    enrABC.get_next_lesson = some lessonB ∧ lessonB.order ≤ lessonC.order := by
  refine ⟨by decide, ?_⟩
  have h := (next_lesson_spec enrABC).1 lessonB (by decide)
  exact h.2.2 lessonC (by decide) (by decide)

/-- Counterexample to C7 as stated: for 1 of 3 minutes watched the code
yields 33.33 (rounded to 2 decimals before the cap), not the unrounded
watched_duration / duration * 100. -/
theorem lesson_progress_percentage_unrounded_counterexample :
    0 < progThird.lesson.duration ∧
    progThird.progress_percentage ≠
      min ((progThird.watched_duration : ℚ) /
        (progThird.lesson.duration : ℚ) * 100) 100 := by
  refine ⟨by decide, ?_⟩
  norm_num [LessonProgress.progress_percentage, progThird, round2, pyRound,
    round_eq, min_def]

/-- C7 amended: for positive duration the percentage is watched_duration over
duration times 100, rounded to 2 decimals and capped at 100; for zero
duration it is 100 when completed and 0 otherwise. The function is total:
the zero-duration branch guards the division. -/
theorem lesson_progress_percentage_spec (p : LessonProgress) :
    (p.lesson.duration = 0 →
      p.progress_percentage = if p.completed then 100 else 0) ∧
    (p.lesson.duration ≠ 0 →
      p.progress_percentage =
        min (round2 ((p.watched_duration : ℚ) /
          (p.lesson.duration : ℚ) * 100)) 100) := by
  constructor <;> intro h <;> simp [LessonProgress.progress_percentage, h]

/-- Witness for C7 amended: a completed lesson of zero duration reads 100. -/
theorem lesson_progress_percentage_witness :
    progZeroDur.progress_percentage = 100 := by
  have h := (lesson_progress_percentage_spec progZeroDur).1 (by decide)
  rw [h]
  simp [progZeroDur]

def attrsOver : LPAttrs := { watched_duration := some 25 }

def enrNoneDone : Enrollment :=
  { id := 2, user_id := 7, course := courseABC, is_active := true,
    completed := false, completed_at := none, rating := none, review := "",
    lesson_progress := [progB] }

def attrsReview : EnrAttrs := { review := some "Great course" }

/-- C8: a directly supplied watched_duration exceeding the resolved lesson's
duration makes the serializer validation fail, and the stored record comes
out of the update round-trip unchanged; the value is rejected, never clamped
down. -/
theorem direct_watched_duration_reject (user : Option Nat)
    (inst : LessonProgress) (instEnr : Option Enrollment) (attrs : LPAttrs)
    (now : Nat) (l : Lesson) (wd : Int)
    (hwd : attrs.watched_duration = some wd)
    (hl : lpResolvedLesson (some inst) attrs = some l)
    (hgt : (l.duration : Int) < wd) :
    (∃ msg, lpRunValidation user (some inst) instEnr attrs = Except.error msg) ∧
    lpApply user inst instEnr attrs now = inst := by
  have hrun : ∃ msg,
      lpRunValidation user (some inst) instEnr attrs = Except.error msg := by
    have hnn : ¬ wd < 0 := by
      have : (0 : Int) ≤ (l.duration : Int) := Int.natCast_nonneg _
      omega
    simp only [lpRunValidation, hwd, validate_watched_duration, if_neg hnn]
    simp only [lpValidate, hl]
    by_cases hown : lpOwnerMismatch (lpResolvedEnrollment instEnr attrs) user
    · rw [if_pos hown]
      exact ⟨_, rfl⟩
    · rw [if_neg hown]
      have hwres : lpResolvedWatched (some inst) attrs = wd := by
        simp only [lpResolvedWatched, hwd]
      rw [hwres, if_pos hgt]
      exact ⟨_, rfl⟩
  obtain ⟨msg, hmsg⟩ := hrun
  refine ⟨⟨msg, hmsg⟩, ?_⟩
  simp only [lpApply, hmsg]

/-- Witness for C8: supplying 25 watched minutes against the 20-minute lesson
of the stored row is rejected and the row survives unchanged. -/
theorem direct_watched_duration_reject_witness :
    (∃ msg, lpRunValidation (some 7) (some progB) none attrsOver =
      Except.error msg) ∧
    lpApply (some 7) progB none attrsOver 11 = progB := by
  exact direct_watched_duration_reject (some 7) progB none attrsOver 11
    lessonB 25 (by decide) (by decide) (by decide)

/-- C9: with a non-empty review supplied, validation errors whenever the
enrollment has no completed lesson_progress row, and conversely a successful
validation implies at least one completed row. -/
theorem review_requires_completed_lesson (user : Option Nat)
    (inst : Enrollment) (attrs : EnrAttrs) (r : String)
    (hr : attrs.review = some r) (hne : r ≠ "") :
    ((inst.lesson_progress.filter (fun p => p.completed)).length = 0 →
      ∃ msg, enrValidate user inst attrs = Except.error msg) ∧
    (∀ a, enrValidate user inst attrs = Except.ok a →
      0 < (inst.lesson_progress.filter (fun p => p.completed)).length) := by
  constructor
  · intro hz
    simp only [enrValidate, hr, if_pos hne, if_pos hz]
    split
    · exact ⟨_, rfl⟩
    · exact ⟨_, rfl⟩
  · intro a ha
    by_contra hlen
    have hz : (inst.lesson_progress.filter (fun p => p.completed)).length = 0 :=
      Nat.eq_zero_of_not_pos hlen
    simp only [enrValidate, hr, if_pos hne, if_pos hz] at ha
    revert ha
    split
    · intro ha
      exact Except.noConfusion ha
    · intro ha
      exact Except.noConfusion ha

/-- Witness for C9: a non-empty review on an enrollment whose only progress
row is incomplete is rejected. -/
theorem review_requires_completed_lesson_witness :
    ∃ msg, enrValidate (some 7) enrNoneDone attrsReview = Except.error msg := by
  exact (review_requires_completed_lesson (some 7) enrNoneDone attrsReview
    "Great course" rfl (by decide)).1 (by decide)
